import Mathlib

/-!
Verification of the coutil coroutine utility library (coutil.h).

The library offers single-result coroutines (`basic_task`, with eager
`task` and lazy `lazy_task` flavors), the `wait_all` combinator, and
`basic_generator` with a single-pass `iterator` whose increment returns a
`pseudo_iterator` advance token.

Embedding: a coroutine frame is modelled explicitly.  A task frame is a
list of code segments separated by the suspension points of the body,
threaded through an explicit state `S` standing for everything the body
reads and mutates; the final segment of a body necessarily ends in
`co_return` or a thrown exception.  A generator frame is the list of
events the body produces at successive resumes (`co_yield`, a plain
internal suspension, `co_return`, or a thrown exception).  Handles
(`basic_task`, `basic_generator`, `iterator`) own an optional frame,
`none` being the empty / moved-from state, exactly as the null
`coroutine_handle` in the source.
-/

namespace coutil

/-- Models the exception values the library can raise or capture:
`bad_coroutine_access`, `std::invalid_argument` (increment past the end
iterator), `std::bad_variant_access` (reading a variant that holds the
wrong alternative), and arbitrary user exceptions thrown by coroutine
bodies (such as `throw 6;` in the tests). -/
inductive Err : Type where
  | badCoroutineAccess : Err
  | invalidArgument : Err
  | badVariantAccess : Err
  | user : Int → Err
deriving DecidableEq

/-- Models the outcome of running one code segment of a task body from its
current suspension point: reach the next suspension point (`suspend`),
run to `co_return v` (`ret`), or exit via a thrown exception that
`unhandled_exception` captures (`raise`). -/
inductive SegResult (S T : Type) : Type where
  | suspend : S → SegResult S T
  | ret : S → T → SegResult S T
  | raise : S → Err → SegResult S T

/-- Models a task coroutine frame (the `coroutine_handle` together with its
promise).  `suspended segs lastSeg` is a frame paused at a suspension
point: `segs` are the remaining code segments, each of which may reach
another suspension point or finish early, and `lastSeg` is the final
stretch of code after the last suspension point, which necessarily ends
in `co_return` or a thrown exception.  `finished stat` is a frame
suspended at `final_suspend`, with the promise holding the captured
return value or exception. -/
inductive TFrame (S T : Type) : Type where
  | suspended : List (S → SegResult S T) → (S → S × Except Err T) → TFrame S T
  | finished : Except Err T → TFrame S T

/-- Models `basic_task<T, InitialSuspend>`: owns a coroutine frame, or is
empty (`handle co = nullptr`). -/
structure basic_task (S T : Type) : Type where
  co : Option (TFrame S T)

/-- Models `coroutine_handle::done()`: true exactly when the frame is
suspended at its final suspend point. -/
def TFrame.doneB {S T : Type} : TFrame S T → Bool
  | .finished _ => true
  | .suspended _ _ => false

/-- Models one `coroutine_handle::resume()` on a task frame: run from the
current suspension point to the next one, or to completion (capturing
the returned value or the thrown exception in the promise).  The library
only resumes frames that are not done, so the `finished` case (undefined
behaviour in C++) is modelled as a no-op. -/
def TFrame.stepOnce {S T : Type} : TFrame S T → S → TFrame S T × S
  | .finished st, s => (.finished st, s)
  | .suspended [] lastSeg, s =>
      let r := lastSeg s
      (.finished r.2, r.1)
  | .suspended (seg :: rest) lastSeg, s =>
      match seg s with
      | .suspend s1 => (.suspended rest lastSeg, s1)
      | .ret s1 v => (.finished (.ok v), s1)
      | .raise s1 e => (.finished (.error e), s1)

/-- Models the `while (!co.done()) co.resume();` loop over the remaining
segments, followed by reading the promise state. -/
def runSegs {S T : Type} (lastSeg : S → S × Except Err T) :
    List (S → SegResult S T) → S → Except Err T × S
  | [], s =>
      let r := lastSeg s
      (r.2, r.1)
  | seg :: rest, s =>
      match seg s with
      | .suspend s1 => runSegs lastSeg rest s1
      | .ret s1 v => (.ok v, s1)
      | .raise s1 e => (.error e, s1)

/-- Drives a task frame to completion and reads the promise: the
composition of the resume loop of `basic_task::wait` with the final
extraction of the stored value or exception. -/
def TFrame.runToEnd {S T : Type} : TFrame S T → S → Except Err T × S
  | .finished st, s => (st, s)
  | .suspended segs lastSeg, s => runSegs lastSeg segs s

/-- Certifies that `runToEnd` is the fixpoint of the resume loop: a frame
that is already done is read off directly. -/
theorem TFrame.runToEnd_of_done {S T : Type} (st : Except Err T) (s : S) :
    TFrame.runToEnd (.finished st) s = (st, s) := rfl

/-- Certifies that `runToEnd` is the fixpoint of the resume loop: on a
frame that is not done it performs one `resume` and continues. -/
theorem TFrame.runToEnd_resume {S T : Type} (f : TFrame S T) (s : S)
    (h : f.doneB = false) :
    f.runToEnd s = (f.stepOnce s).1.runToEnd (f.stepOnce s).2 := by
  cases f with
  | finished st => simp [TFrame.doneB] at h
  | suspended segs lastSeg =>
    cases segs with
    | nil => rfl
    | cons seg rest =>
      cases hseg : seg s with
      | suspend s1 => simp [TFrame.stepOnce, TFrame.runToEnd, runSegs, hseg]
      | ret s1 v => simp [TFrame.stepOnce, TFrame.runToEnd, runSegs, hseg]
      | raise s1 e => simp [TFrame.stepOnce, TFrame.runToEnd, runSegs, hseg]

/-- Models `basic_task::empty()`. -/
def basic_task.empty {S T : Type} (t : basic_task S T) : Bool := t.co.isNone

/-- Models `basic_task::done()`: throws `bad_coroutine_access` on an empty
handle, otherwise reports `coroutine_handle::done()`. -/
def basic_task.done {S T : Type} (t : basic_task S T) : Except Err Bool :=
  match t.co with
  | none => .error .badCoroutineAccess
  | some f => .ok f.doneB

/-- Models `basic_task::resume()`: throws `bad_coroutine_access` on an
empty handle; resumes only when the coroutine is not done. -/
def basic_task.resume {S T : Type} (t : basic_task S T) (s : S) :
    Except Err (basic_task S T × S) :=
  match t.co with
  | none => .error .badCoroutineAccess
  | some f =>
      if f.doneB then .ok (t, s)
      else
        let r := f.stepOnce s
        .ok (⟨some r.1⟩, r.2)

/-- Models `basic_task::wait()`: throws `bad_coroutine_access` on an empty
handle (leaving it unchanged); otherwise drives the frame to completion,
destroys it (the sentry object empties the handle even when the stored
exception is rethrown), and produces the stored value or exception.  The
first component is the handle after the call. -/
def basic_task.wait {S T : Type} (t : basic_task S T) (s : S) :
    basic_task S T × S × Except Err T :=
  match t.co with
  | none => (t, s, .error .badCoroutineAccess)
  | some f =>
      let r := f.runToEnd s
      (⟨none⟩, r.2, r.1)

/-- Models construction of an eager `task<T>` (initial suspend is
`suspend_never`): the body runs immediately up to its first internal
suspension point, or to completion. -/
def make_task {S T : Type} (segs : List (S → SegResult S T))
    (lastSeg : S → S × Except Err T) (s : S) : basic_task S T × S :=
  let r := TFrame.stepOnce (.suspended segs lastSeg) s
  (⟨some r.1⟩, r.2)

/-- Models construction of a `lazy_task<T>` (initial suspend is
`suspend_always`): no code of the body runs until the first resume. -/
def make_lazy_task {S T : Type} (segs : List (S → SegResult S T))
    (lastSeg : S → S × Except Err T) : basic_task S T :=
  ⟨some (.suspended segs lastSeg)⟩

/-- Models the destructor `~basic_task`: destroys the held frame, if any.
The returned list records which frames the destructor destroys. -/
def basic_task.destroy {S T : Type} (t : basic_task S T) : List (TFrame S T) :=
  match t.co with
  | none => []
  | some f => [f]

/-- Models `basic_task::operator=(basic_task&&)` between distinct objects:
`co = std::exchange(other.co, nullptr)`.  The target takes the frame of
the source and the source becomes empty; the assignment contains no
destroy call, so the frame previously held by the target is abandoned.
The last component records the frames destroyed by the operation. -/
def basic_task.moveAssign {S T : Type} (target source : basic_task S T) :
    basic_task S T × basic_task S T × List (TFrame S T) :=
  (⟨source.co⟩, ⟨none⟩, [])

/-- Models move self-assignment (`&other == this`):
`std::exchange(co, nullptr)` reads the old handle, nulls the member and
hands the old value back, which the outer assignment then restores. -/
def basic_task.selfMoveAssign {S T : Type} (t : basic_task S T) :
    basic_task S T × List (TFrame S T) :=
  (⟨t.co⟩, [])

/-- Size of a task frame: an upper bound on the number of resumes it can
still absorb before reaching its final suspend point. -/
def TFrame.size {S T : Type} : TFrame S T → Nat
  | .finished _ => 0
  | .suspended segs _ => segs.length + 1

/-- Size of a task handle (zero when empty or done). -/
def basic_task.sizeT {S T : Type} (t : basic_task S T) : Nat :=
  match t.co with
  | none => 0
  | some f => f.size

/-- Total size of a list of task handles. -/
def sumSize {S T : Type} : List (basic_task S T) → Nat
  | [] => 0
  | t :: rest => t.sizeT + sumSize rest

/-- Models one pass of the fold `(... | (tasks.resume(), !tasks.done()))`
inside `wait_all`: every task is resumed once, left to right (the resume
on an already-done task being a no-op), and the pass reports whether any
task is still not done afterwards.  A `bad_coroutine_access` thrown by an
inner `resume`/`done` aborts the whole expression. -/
def onePass {S T : Type} : List (basic_task S T) → S →
    Except Err (List (basic_task S T) × S × Bool)
  | [], s => .ok ([], s, false)
  | t :: rest, s =>
      match t.resume s with
      | .error e => .error e
      | .ok (t1, s1) =>
          match t1.done with
          | .error e => .error e
          | .ok d =>
              match onePass rest s1 with
              | .error e => .error e
              | .ok (rest1, s2, flag) => .ok (t1 :: rest1, s2, (!d || flag))

/-- Models the driving loop of `wait_all`, with an explicit pass budget.
A budget of `sumSize ts + 1` always suffices (`waitAllLoop_spec`): every
pass in which some task was still not done strictly decreases the total
frame size, so the zero-budget branch is never reached from `wait_all`. -/
def waitAllLoop {S T : Type} : Nat → List (basic_task S T) → S →
    Except Err (List (basic_task S T) × S)
  | 0, ts, s => .ok (ts, s)
  | n + 1, ts, s =>
      match onePass ts s with
      | .error e => .error e
      | .ok (ts1, s1, flag) =>
          if flag then waitAllLoop n ts1 s1 else .ok (ts1, s1)

/-- Models `wait_all(tasks...)`:
`while ((... | (tasks.resume(), !tasks.done())));` — the tasks are
resumed in a fixed round-robin order until all are done.  `wait` is never
called, so no task is consumed. -/
def wait_all {S T : Type} (ts : List (basic_task S T)) (s : S) :
    Except Err (List (basic_task S T) × S) :=
  waitAllLoop (sumSize ts + 1) ts s

theorem TFrame.size_stepOnce_lt {S T : Type} (f : TFrame S T) (s : S)
    (h : f.doneB = false) : ((f.stepOnce s).1).size < f.size := by
  cases f with
  | finished st => simp [TFrame.doneB] at h
  | suspended segs lastSeg =>
    cases segs with
    | nil => simp [TFrame.stepOnce, TFrame.size]
    | cons seg rest =>
      cases hseg : seg s with
      | suspend s1 =>
        simp [TFrame.stepOnce, hseg, TFrame.size]
      | ret s1 v =>
        simp [TFrame.stepOnce, hseg, TFrame.size]
      | raise s1 e =>
        simp [TFrame.stepOnce, hseg, TFrame.size]

/-- Behaviour of one `resume` on a non-empty task: it succeeds, keeps the
handle non-empty, never increases the frame size, and strictly decreases
it whenever the resulting task is still not done. -/
theorem basic_task.resume_spec {S T : Type} (t : basic_task S T) (s : S)
    (h : t.co ≠ none) :
    ∃ t1 s1 d, t.resume s = .ok (t1, s1) ∧ t1.done = .ok d ∧
      t1.co ≠ none ∧ t1.sizeT ≤ t.sizeT ∧ (d = false → t1.sizeT < t.sizeT) := by
  rcases t with ⟨co⟩
  cases co with
  | none => exact absurd rfl h
  | some f =>
    by_cases hd : f.doneB = true
    · refine ⟨⟨some f⟩, s, true, ?_, ?_, ?_, le_refl _, ?_⟩
      · simp [basic_task.resume, hd]
      · simp [basic_task.done, hd]
      · simp
      · intro hc; cases hc
    · have hd' : f.doneB = false := by
        cases hdb : f.doneB
        · rfl
        · exact absurd hdb hd
      refine ⟨⟨some (f.stepOnce s).1⟩, (f.stepOnce s).2, ((f.stepOnce s).1).doneB,
        ?_, ?_, ?_, ?_, ?_⟩
      · simp [basic_task.resume, hd']
      · simp [basic_task.done]
      · simp
      · exact Nat.le_of_lt (TFrame.size_stepOnce_lt f s hd')
      · intro _; exact TFrame.size_stepOnce_lt f s hd'

/-- Behaviour of one pass of `wait_all` over non-empty tasks: the pass
succeeds, preserves the number of tasks and their non-emptiness, never
increases the total frame size, strictly decreases it when the pass
reported some task still not done, and reports all tasks done otherwise. -/
theorem onePass_spec {S T : Type} :
    ∀ (ts : List (basic_task S T)) (s : S),
    (∀ t ∈ ts, t.co ≠ none) →
    ∃ ts1 s1 flag, onePass ts s = .ok (ts1, s1, flag) ∧
      ts1.length = ts.length ∧
      (∀ t1 ∈ ts1, t1.co ≠ none) ∧
      sumSize ts1 ≤ sumSize ts ∧
      (flag = true → sumSize ts1 < sumSize ts) ∧
      (flag = false → ∀ t1 ∈ ts1, t1.done = .ok true) := by
  intro ts
  induction ts with
  | nil =>
    intro s _
    refine ⟨[], s, false, rfl, rfl, ?_, le_refl _, ?_, ?_⟩
    · intro t1 ht1; cases ht1
    · intro hc; cases hc
    · intro _ t1 ht1; cases ht1
  | cons t rest ih =>
    intro s hlive
    obtain ⟨t1, s1, d, hres, hdone, hlive1, hle, hlt⟩ :=
      basic_task.resume_spec t s (hlive t (List.mem_cons_self t rest))
    obtain ⟨rest1, s2, flag, hpass, hlen, hliveR, hleR, hltR, hdoneR⟩ :=
      ih s1 (fun u hu => hlive u (List.mem_cons_of_mem t hu))
    refine ⟨t1 :: rest1, s2, (!d || flag), ?_, ?_, ?_, ?_, ?_, ?_⟩
    · simp [onePass, hres, hdone, hpass]
    · simp [hlen]
    · intro u hu
      rcases List.mem_cons.mp hu with h1 | h2
      · exact h1 ▸ hlive1
      · exact hliveR u h2
    · simp only [sumSize]
      exact Nat.add_le_add hle hleR
    · intro hflag
      cases d with
      | false =>
        have h1 : t1.sizeT < t.sizeT := hlt rfl
        simp only [sumSize]
        exact Nat.add_lt_add_of_lt_of_le h1 hleR
      | true =>
        cases flag with
        | false => simp at hflag
        | true =>
          have h2 : sumSize rest1 < sumSize rest := hltR rfl
          simp only [sumSize]
          exact Nat.add_lt_add_of_le_of_lt hle h2
    · intro hflag
      have hd : d = true := by
        cases d
        · simp at hflag
        · rfl
      have hf : flag = false := by
        cases flag
        · rfl
        · simp at hflag
      intro u hu
      rcases List.mem_cons.mp hu with h1 | h2
      · rw [h1]; rw [hd] at hdone; exact hdone
      · exact hdoneR hf u h2

/-- Behaviour of the `wait_all` loop with sufficient budget: it succeeds
and leaves every task non-empty and done. -/
theorem waitAllLoop_spec {S T : Type} :
    ∀ (n : Nat) (ts : List (basic_task S T)) (s : S),
    (∀ t ∈ ts, t.co ≠ none) → sumSize ts < n →
    ∃ ts1 s1, waitAllLoop n ts s = .ok (ts1, s1) ∧
      ts1.length = ts.length ∧
      (∀ t1 ∈ ts1, t1.co ≠ none) ∧
      (∀ t1 ∈ ts1, t1.done = .ok true) := by
  intro n
  induction n with
  | zero => intro ts s _ hlt; omega
  | succ n ih =>
    intro ts s hlive hlt
    obtain ⟨ts1, s1, flag, hpass, hlen, hlive1, hle, hstrict, hdone⟩ :=
      onePass_spec ts s hlive
    cases flag with
    | false =>
      refine ⟨ts1, s1, ?_, hlen, hlive1, hdone rfl⟩
      simp [waitAllLoop, hpass]
    | true =>
      have h1 : sumSize ts1 < sumSize ts := hstrict rfl
      obtain ⟨ts2, s2, hloop, hlen2, hlive2, hdone2⟩ :=
        ih ts1 s1 hlive1 (by omega)
      refine ⟨ts2, s2, ?_, by rw [hlen2, hlen], hlive2, hdone2⟩
      simp [waitAllLoop, hpass, hloop]

/-- Behaviour of `wait_all` on non-empty tasks: it terminates with every
task still owning its frame (never consumed) and reporting done. -/
theorem wait_all_spec {S T : Type} (ts : List (basic_task S T)) (s : S)
    (hlive : ∀ t ∈ ts, t.co ≠ none) :
    ∃ ts1 s1, wait_all ts s = .ok (ts1, s1) ∧
      ts1.length = ts.length ∧
      (∀ t1 ∈ ts1, t1.co ≠ none) ∧
      (∀ t1 ∈ ts1, t1.done = .ok true) :=
  waitAllLoop_spec (sumSize ts + 1) ts s hlive (Nat.lt_succ_self _)

/-- Models one step of a generator body, as observed at each resume:
`yield v` is a `co_yield v`, `pause` is an internal suspension point that
produces no value, `ret` is `co_return` (or falling off the end of the
body), and `raise e` is a thrown exception, captured by
`unhandled_exception`. -/
inductive GStep (T : Type) : Type where
  | yield : T → GStep T
  | pause : GStep T
  | ret : GStep T
  | raise : Err → GStep T

/-- Models a generator coroutine frame: the remaining body, the promise
`stat` (`none` models the default-constructed variant holding a null
`exception_ptr`), the promise `yield_flag`, and whether the frame is
suspended at `final_suspend` (`coroutine_handle::done()`). -/
structure GFrame (T : Type) : Type where
  body : List (GStep T)
  stat : Option (Except Err T)
  yield_flag : Bool
  finished : Bool

/-- Models one `coroutine_handle::resume()` on a generator frame: run to
the next `co_yield` (storing the value in the promise via `yield_value`
and setting `yield_flag`), to the next internal suspension point, or to
completion (capturing a thrown exception if there is one).  The library
never resumes a done generator frame, so that case is a no-op here. -/
def GFrame.resume {T : Type} (f : GFrame T) : GFrame T :=
  if f.finished then f
  else
    match f.body with
    | [] => { f with body := [], finished := true }
    | .yield v :: rest =>
        { f with body := rest, stat := some (.ok v), yield_flag := true }
    | .pause :: rest => { f with body := rest }
    | .ret :: _ => { f with body := [], finished := true }
    | .raise e :: _ =>
        { f with body := [], stat := some (.error e), finished := true }

/-- Models `pseudo_iterator::done()`: the advance is complete when the
coroutine finished or a yield value was deposited. -/
def pseudoDone {T : Type} (f : GFrame T) : Bool := f.finished || f.yield_flag

/-- Models the `while (!done()) it->co.resume();` loop of
`pseudo_iterator::wait`, with an explicit step budget.  A budget of
`body.length + 1` always suffices (`pseudoDone_waitSteps`). -/
def waitSteps {T : Type} : Nat → GFrame T → GFrame T
  | 0, f => f
  | n + 1, f => if pseudoDone f then f else waitSteps n f.resume

/-- Models `pseudo_iterator`, the advance token returned by iterator
increment: it carries the state of the frame of the iterator right after
the token constructor cleared `yield_flag` and resumed once. -/
structure pseudo_iterator (T : Type) : Type where
  frame : GFrame T

/-- Models `basic_generator::iterator`: owns a frame, or is the end
iterator (`handle co = nullptr`). -/
structure gen_iterator (T : Type) : Type where
  co : Option (GFrame T)

/-- Models `pseudo_iterator::wait()`: drive the advance to completion;
when the coroutine has finished, destroy the frame and null the handle,
leaving the source iterator in the end state.  The result is the state of
the source iterator after the advance. -/
def pseudo_iterator.wait {T : Type} (p : pseudo_iterator T) : gen_iterator T :=
  let f := waitSteps (p.frame.body.length + 1) p.frame
  if f.finished then ⟨none⟩ else ⟨some f⟩

/-- Models `iterator::operator++`: throws `std::invalid_argument` on an
end-state iterator; otherwise builds the advance token, whose constructor
clears `yield_flag` and resumes the coroutine once. -/
def gen_iterator.inc {T : Type} (it : gen_iterator T) :
    Except Err (pseudo_iterator T) :=
  match it.co with
  | none => .error .invalidArgument
  | some f => .ok ⟨GFrame.resume { f with yield_flag := false }⟩

/-- Models an increment whose token is immediately discarded (the
destructor of the token calls `wait()`): the ordinary synchronous `++it`. -/
def gen_iterator.incWait {T : Type} (it : gen_iterator T) :
    Except Err (gen_iterator T) :=
  (it.inc).map pseudo_iterator.wait

/-- Models `iterator::operator*`.  The result `none` models the undefined
behaviour of reading `co.promise()` through a null handle (an end-state
iterator).  On a live iterator: rethrow a stored exception
(`ex && *ex`), return the stored value, or raise `bad_variant_access`
when the variant still holds the initial null `exception_ptr`
(`std::get<1>` on the wrong alternative). -/
def gen_iterator.deref {T : Type} (it : gen_iterator T) :
    Option (Except Err T) :=
  match it.co with
  | none => none
  | some f =>
      match f.stat with
      | some (.error e) => some (.error e)
      | some (.ok v) => some (.ok v)
      | none => some (.error .badVariantAccess)

/-- Models `operator==` on iterators: they are uniquely owning, so the
only way two can be equal is for both to be end-state iterators. -/
def gen_iterator.eq {T : Type} (a b : gen_iterator T) : Bool :=
  a.co.isNone && b.co.isNone

/-- Models `operator!=` on iterators: the negation of `operator==`. -/
def gen_iterator.ne {T : Type} (a b : gen_iterator T) : Bool :=
  !(gen_iterator.eq a b)

/-- Models `basic_generator<T>`: owns a suspended frame, or is empty. -/
structure basic_generator (T : Type) : Type where
  co : Option (GFrame T)

/-- Models constructing a generator from a body: initial suspend is
`suspend_always`, so no code has run, the promise variant holds the
default null `exception_ptr`, the yield flag is clear and the frame is
not done. -/
def mkGen {T : Type} (body : List (GStep T)) : basic_generator T :=
  ⟨some ⟨body, none, false, false⟩⟩

/-- Models the iterator constructor `iterator(handle h)`: when the handle
is non-null, advance once (`++*this`, with the token discarded) to fetch
the first value; a null handle gives the end iterator. -/
def gen_iterator.fromHandle {T : Type} : Option (GFrame T) → gen_iterator T
  | none => ⟨none⟩
  | some f => pseudo_iterator.wait ⟨GFrame.resume { f with yield_flag := false }⟩

/-- Certifies that `fromHandle` on a non-null handle performs exactly the
increment `++*this` with the token discarded. -/
theorem gen_iterator.fromHandle_eq_incWait {T : Type} (f : GFrame T) :
    gen_iterator.incWait ⟨some f⟩ = .ok (gen_iterator.fromHandle (some f)) := rfl

/-- Models `basic_generator::begin()`: steals the frame
(`std::exchange(co, nullptr)`) into a new iterator.  The result is the
iterator together with the generator after the call (now empty). -/
def basic_generator.begin {T : Type} (g : basic_generator T) :
    gen_iterator T × basic_generator T :=
  (gen_iterator.fromHandle g.co, ⟨none⟩)

/-- Models `basic_generator::end()`: a default-constructed, end-state
iterator; the generator is not touched. -/
def basic_generator.endIter {T : Type} : gen_iterator T := ⟨none⟩

/-- Models `basic_generator::operator=(basic_generator&&)` between
distinct objects: `co = std::exchange(other.co, nullptr)`, with no
destroy call; the last component records the frames destroyed. -/
def basic_generator.moveAssign {T : Type} (target source : basic_generator T) :
    basic_generator T × basic_generator T × List (GFrame T) :=
  (⟨source.co⟩, ⟨none⟩, [])

/-- Models generator move self-assignment: the exchange restores the
original handle. -/
def basic_generator.selfMoveAssign {T : Type} (g : basic_generator T) :
    basic_generator T × List (GFrame T) :=
  (⟨g.co⟩, [])

/-- Models `iterator::operator=(iterator&&)` between distinct objects:
`co = std::exchange(other.co, nullptr)`, with no destroy call; the last
component records the frames destroyed. -/
def gen_iterator.moveAssign {T : Type} (target source : gen_iterator T) :
    gen_iterator T × gen_iterator T × List (GFrame T) :=
  (⟨source.co⟩, ⟨none⟩, [])

/-- Models iterator move self-assignment: the exchange restores the
original handle. -/
def gen_iterator.selfMoveAssign {T : Type} (it : gen_iterator T) :
    gen_iterator T × List (GFrame T) :=
  (⟨it.co⟩, [])

theorem waitSteps_of_done {T : Type} (n : Nat) (f : GFrame T)
    (h : pseudoDone f = true) : waitSteps n f = f := by
  cases n with
  | zero => rfl
  | succ n => simp [waitSteps, h]

/-- The step budget `body.length + 1` always completes the advance. -/
theorem pseudoDone_waitSteps {T : Type} :
    ∀ (body : List (GStep T)) (f : GFrame T), f.body = body →
    pseudoDone (waitSteps (body.length + 1) f) = true := by
  intro body
  induction body with
  | nil =>
    intro f hb
    by_cases h : pseudoDone f = true
    · simpa [waitSteps, h] using h
    · have h' : pseudoDone f = false := by
        cases hp : pseudoDone f
        · rfl
        · exact absurd hp h
      have hfin : f.finished = false := by
        have := h'
        simp [pseudoDone] at this
        exact this.1
      simp only [List.length_nil, waitSteps, h']
      simp [GFrame.resume, hfin, hb, pseudoDone]
  | cons g rest ih =>
    intro f hb
    by_cases h : pseudoDone f = true
    · rw [waitSteps_of_done _ _ h]
      exact h
    · have h' : pseudoDone f = false := by
        cases hp : pseudoDone f
        · rfl
        · exact absurd hp h
      have hfin : f.finished = false := by
        have h2 := h'
        simp [pseudoDone] at h2
        exact h2.1
      have hstep : waitSteps ((g :: rest).length + 1) f
          = waitSteps (rest.length + 1) f.resume := by
        show (if pseudoDone f then f else waitSteps (rest.length + 1) f.resume) = _
        rw [if_neg (by simp [h'])]
      rw [hstep]
      cases g with
      | yield v =>
        have hres : f.resume =
            { f with body := rest, stat := some (.ok v), yield_flag := true } := by
          simp [GFrame.resume, hfin, hb]
        rw [hres, waitSteps_of_done _ _ (by simp [pseudoDone])]
        simp [pseudoDone]
      | pause =>
        have hres : f.resume = { f with body := rest } := by
          simp [GFrame.resume, hfin, hb]
        rw [hres]
        exact ih { f with body := rest } rfl
      | ret =>
        have hres : f.resume = { f with body := [], finished := true } := by
          simp [GFrame.resume, hfin, hb]
        rw [hres, waitSteps_of_done _ _ (by simp [pseudoDone])]
        simp [pseudoDone]
      | raise e =>
        have hres : f.resume =
            { f with body := [], stat := some (.error e), finished := true } := by
          simp [GFrame.resume, hfin, hb]
        rw [hres, waitSteps_of_done _ _ (by simp [pseudoDone])]
        simp [pseudoDone]

/-- Invariant of an advance: whenever the yield flag is set, the promise
holds a yielded value. -/
def flagInv {T : Type} (f : GFrame T) : Prop :=
  f.yield_flag = true → ∃ v, f.stat = some (.ok v)

theorem flagInv_resume {T : Type} (f : GFrame T) (h : f.yield_flag = false) :
    flagInv f.resume := by
  unfold GFrame.resume
  by_cases hfin : f.finished = true
  · simp only [hfin, if_true]
    intro hflag
    rw [h] at hflag
    cases hflag
  · have hfin' : f.finished = false := by
      cases hf : f.finished
      · rfl
      · exact absurd hf hfin
    simp only [hfin', Bool.false_eq_true, if_false]
    cases hb : f.body with
    | nil =>
      intro hflag
      simp at hflag
      rw [h] at hflag
      cases hflag
    | cons g rest =>
      cases g with
      | yield v => intro _; exact ⟨v, rfl⟩
      | pause =>
        intro hflag
        simp at hflag
        rw [h] at hflag
        cases hflag
      | ret =>
        intro hflag
        simp at hflag
        rw [h] at hflag
        cases hflag
      | raise e =>
        intro hflag
        simp at hflag
        rw [h] at hflag
        cases hflag

theorem flagInv_waitSteps {T : Type} :
    ∀ (n : Nat) (f : GFrame T), flagInv f → flagInv (waitSteps n f) := by
  intro n
  induction n with
  | zero => intro f hf; exact hf
  | succ n ih =>
    intro f hf
    by_cases h : pseudoDone f = true
    · simpa [waitSteps, h] using hf
    · have h' : pseudoDone f = false := by
        cases hp : pseudoDone f
        · rfl
        · exact absurd hp h
      have hflag : f.yield_flag = false := by
        have := h'
        simp [pseudoDone] at this
        exact this.2
      simp only [waitSteps, h', Bool.false_eq_true, if_false]
      exact ih f.resume (flagInv_resume f hflag)

/-- Body of the first eager task in the interleaving test of test.cpp:
three internal suspension points, writing 14, -56 and 365 to the shared
variable, then 19 in the final stretch before returning. -/
def c2_taskA_segs : List (Int → SegResult Int Unit) :=
  [fun _ => .suspend 14, fun _ => .suspend (-56), fun _ => .suspend 365]

/-- Final stretch of the first task: write 19 and `co_return`. -/
def c2_taskA_last : Int → Int × Except Err Unit := fun _ => (19, .ok ())

/-- Body of the second eager task in the interleaving test: writes 65,
-128 and 12 at its suspension points, then 1777 before returning. -/
def c2_taskB_segs : List (Int → SegResult Int Unit) :=
  [fun _ => .suspend 65, fun _ => .suspend (-128), fun _ => .suspend 12]

/-- Final stretch of the second task: write 1777 and `co_return`. -/
def c2_taskB_last : Int → Int × Except Err Unit := fun _ => (1777, .ok ())

/-- The interleaving scenario of the test block in test.cpp: construct the
two eager tasks (each immediately runs to its first suspension point) on
the shared variable starting at 0, then drive both with `wait_all`. -/
def c2_scenario : Except Err (List (basic_task Int Unit) × Int) :=
  let a := make_task c2_taskA_segs c2_taskA_last 0
  let b := make_task c2_taskB_segs c2_taskB_last a.2
  wait_all [a.1, b.1] b.2

/-- Decides the outcome of the interleaving scenario: `wait_all` succeeds,
the shared variable ends at 1777 (the value implied by strict round-robin
alternation, asserted by the test), and both tasks are still non-empty
and done. -/
def c2_check : Bool :=
  match c2_scenario with
  | .ok (ts, s) =>
      (s == 1777) && ts.all (fun t => !t.empty)
        && ts.all (fun t =>
            match t.done with
            | .ok d => d
            | .error _ => false)
  | .error _ => false

/-- Claim C1: for every non-empty task handle, `wait()` drives the
coroutine to completion and then either returns the produced value or
re-raises the captured error (the result is exactly the outcome of
running the frame to its end), and in both cases leaves the handle in
the empty state; consequently a second `wait()` on the same handle
raises the empty-access error `bad_coroutine_access`. -/
theorem C1_wait_single_shot {S T : Type} (t : basic_task S T)
    (f : TFrame S T) (s : S) (h : t.co = some f) :
    (t.wait s).1 = ⟨none⟩ ∧
    (t.wait s).2.2 = (f.runToEnd s).1 ∧
    (t.wait s).2.1 = (f.runToEnd s).2 ∧
    ((t.wait s).1).wait ((t.wait s).2.1)
      = ((t.wait s).1, (t.wait s).2.1, .error .badCoroutineAccess) := by
  rcases t with ⟨co⟩
  cases h
  exact ⟨rfl, rfl, rfl, rfl⟩

theorem C1_witness :
    ((make_lazy_task ([] : List (Int → SegResult Int Int))
        (fun s => (s, .ok 7))).wait 0).1 = ⟨none⟩ :=
  (C1_wait_single_shot _ _ 0 rfl).1

/-- Claim C2: `wait_all(tasks...)` repeatedly performs one resume on every
not-yet-done task in a fixed round-robin order until every task reports
done (it only ever calls `resume` and `done`, so no task is consumed:
they all stay non-empty); in particular, for the two eager tasks of the
test, each with three internal suspension points mutating a shared
variable, `wait_all` drives both to completion and the shared variable
ends at 1777, the value implied by strict round-robin alternation. -/
theorem C2_wait_all_round_robin :
    (∀ (S T : Type) (ts : List (basic_task S T)) (s : S),
        (∀ t ∈ ts, t.co ≠ none) →
        ∃ ts1 s1, wait_all ts s = .ok (ts1, s1) ∧ ts1.length = ts.length ∧
          (∀ t1 ∈ ts1, t1.co ≠ none) ∧ (∀ t1 ∈ ts1, t1.done = .ok true)) ∧
    c2_check = true := by
  constructor
  · intro S T ts s h
    exact wait_all_spec ts s h
  · decide

/-- A sample lazy task used to instantiate the universal part of C2. -/
def c2_sample : basic_task Int Int := make_lazy_task [] (fun s => (s, .ok 5))

theorem C2_witness :
    ∃ ts1 s1, wait_all [c2_sample] (0 : Int) = .ok (ts1, s1) ∧
      ts1.length = [c2_sample].length ∧
      (∀ t1 ∈ ts1, t1.co ≠ none) ∧ (∀ t1 ∈ ts1, t1.done = .ok true) :=
  C2_wait_all_round_robin.1 Int Int [c2_sample] 0 (by
    intro t ht
    rw [List.mem_singleton] at ht
    subst ht
    simp [c2_sample, make_lazy_task])

/-- Claim C3 (code bug): for a generator whose body raises an error before
producing any yield value, the spec says dereferencing the iterator
obtained from `begin()` raises that exact error.  In the code, the first
advance performed inside `begin()` sees the coroutine done and destroys
the frame together with the captured exception
(`if (it->co.done()) { it->co.destroy(); it->co = nullptr; }`), so the
returned iterator is already in the end state and dereferencing it reads
`co.promise()` through a null handle (modelled as `none`, undefined
behaviour) instead of rethrowing the captured error — even though the
comment on `operator*` promises exactly that rethrow. -/
theorem C3_error_before_yield_lost :
    (((mkGen [GStep.raise (Err.user 6)] : basic_generator Int).begin).1.co
        = none) ∧
    gen_iterator.deref
        ((mkGen [GStep.raise (Err.user 6)] : basic_generator Int).begin).1
      = none := ⟨rfl, rfl⟩

/-- Claim C4: on a non-empty task handle whose coroutine is already done,
`resume()` is a no-op (it returns the identical handle and state); on a
non-empty handle whose coroutine is not done, `resume()` performs exactly
one continuation step (`TFrame.stepOnce`: it runs until the next
suspension point or completion). -/
theorem C4_resume_done_noop {S T : Type} (t : basic_task S T)
    (f : TFrame S T) (s : S) (h : t.co = some f) :
    (f.doneB = true → t.resume s = .ok (t, s)) ∧
    (f.doneB = false →
      t.resume s = .ok (⟨some (f.stepOnce s).1⟩, (f.stepOnce s).2)) := by
  rcases t with ⟨co⟩
  cases h
  constructor
  · intro hd
    simp [basic_task.resume, hd]
  · intro hd
    simp [basic_task.resume, hd]

theorem C4_witness :
    (⟨some (TFrame.finished (.ok (5 : Int)))⟩ : basic_task Int Int).resume 0
      = .ok (⟨some (TFrame.finished (.ok 5))⟩, 0) :=
  (C4_resume_done_noop _ _ 0 rfl).1 rfl

/-- Claim C5: `begin()` is destructive — it transfers frame ownership into
the returned iterator and leaves the generator empty, so a second
`begin()` on the same generator returns an iterator equal to `end()`;
and a generator that returns without yielding (its body starts with
`co_return`) has `begin() == end()` immediately. -/
theorem C5_begin_destructive {T : Type} (g : basic_generator T)
    (rest : List (GStep T)) :
    (g.begin).2.co = none ∧
    gen_iterator.eq (((g.begin).2).begin).1 basic_generator.endIter = true ∧
    ((mkGen (GStep.ret :: rest)).begin).1.co = none ∧
    gen_iterator.eq ((mkGen (GStep.ret :: rest)).begin).1
      basic_generator.endIter = true :=
  ⟨rfl, rfl, rfl, rfl⟩

/-- Claim C6: immediately after construction, an eager task whose
computation contains no internal suspension point (an empty segment
list) is done and its result is already stored, with no explicit resume;
a lazy task is not done even when the computation would finish with zero
internal suspensions, and its first resume both runs it and brings it to
completion in that case. -/
theorem C6_initial_state {S T : Type} (lastSeg : S → S × Except Err T)
    (s : S) :
    ((make_task [] lastSeg s).1.done = .ok true ∧
     (make_task [] lastSeg s).1.co = some (.finished (lastSeg s).2) ∧
     (make_task [] lastSeg s).2 = (lastSeg s).1) ∧
    ((∀ segs, (make_lazy_task segs lastSeg).done = .ok false) ∧
     (make_lazy_task ([] : List (S → SegResult S T)) lastSeg).resume s
       = .ok (⟨some (.finished (lastSeg s).2)⟩, (lastSeg s).1) ∧
     (⟨some (.finished (lastSeg s).2)⟩ : basic_task S T).done = .ok true) :=
  ⟨⟨rfl, rfl, rfl⟩, fun _ => rfl, rfl, rfl⟩

/-- Claim C7: `done`, `resume` and `wait` invoked on a handle holding no
frame raise the empty-access error `bad_coroutine_access` synchronously,
and `wait` hands back the unchanged (empty) handle. -/
theorem C7_empty_access {S T : Type} (t : basic_task S T) (s : S)
    (h : t.co = none) :
    t.done = .error .badCoroutineAccess ∧
    t.resume s = .error .badCoroutineAccess ∧
    t.wait s = (t, s, .error .badCoroutineAccess) := by
  rcases t with ⟨co⟩
  cases h
  exact ⟨rfl, rfl, rfl⟩

theorem C7_witness :
    (⟨none⟩ : basic_task Int Int).done = .error .badCoroutineAccess :=
  (C7_empty_access ⟨none⟩ (0 : Int) rfl).1

/-- Claim C8: two generator iterators compare equal exactly when both are
in the end state (own no frame); hence a live iterator is never equal to
anything, itself included; and `!=` is the negation of `==`. -/
theorem C8_iterator_equality {T : Type} (a b : gen_iterator T) :
    (gen_iterator.eq a b = true ↔ a.co = none ∧ b.co = none) ∧
    gen_iterator.ne a b = !(gen_iterator.eq a b) := by
  constructor
  · constructor
    · intro h
      rcases a with ⟨ca⟩
      rcases b with ⟨cb⟩
      cases ca <;> cases cb <;> simp_all [gen_iterator.eq]
    · rintro ⟨h1, h2⟩
      simp [gen_iterator.eq, h1, h2]
  · rfl

theorem C8_witness :
    gen_iterator.eq (⟨none⟩ : gen_iterator Int) ⟨none⟩ = true :=
  (C8_iterator_equality ⟨none⟩ ⟨none⟩).1.mpr ⟨rfl, rfl⟩

/-- Claim C9: incrementing an iterator already in the end state (including
the iterator returned by `end()`) raises the invalid-increment error
`std::invalid_argument`; incrementing a live iterator returns an advance
token that, once completed, either holds the next produced element (the
promise stores a yielded value) or transitions the iterator to the end
state when the computation completed without yielding further. -/
theorem C9_increment {T : Type} (it : gen_iterator T) (f : GFrame T) :
    (it.co = none → it.inc = .error .invalidArgument) ∧
    ((basic_generator.endIter : gen_iterator T).inc
        = .error .invalidArgument) ∧
    (it.co = some f →
      ∃ p, it.inc = .ok p ∧
        ((p.wait.co = none ∧
            (waitSteps (p.frame.body.length + 1) p.frame).finished = true) ∨
         (∃ f1 v, p.wait.co = some f1 ∧ f1.finished = false ∧
            f1.yield_flag = true ∧ f1.stat = some (.ok v)))) := by
  refine ⟨?_, rfl, ?_⟩
  · intro h
    rcases it with ⟨co⟩
    cases h
    rfl
  · intro h
    rcases it with ⟨co⟩
    cases h
    refine ⟨⟨GFrame.resume { f with yield_flag := false }⟩, rfl, ?_⟩
    have hdone : pseudoDone (waitSteps
        ((GFrame.resume { f with yield_flag := false }).body.length + 1)
        (GFrame.resume { f with yield_flag := false })) = true :=
      pseudoDone_waitSteps _ _ rfl
    have hinv : flagInv (waitSteps
        ((GFrame.resume { f with yield_flag := false }).body.length + 1)
        (GFrame.resume { f with yield_flag := false })) :=
      flagInv_waitSteps _ _ (flagInv_resume _ rfl)
    cases hfin : (waitSteps
        ((GFrame.resume { f with yield_flag := false }).body.length + 1)
        (GFrame.resume { f with yield_flag := false })).finished with
    | true =>
      left
      constructor
      · simp [pseudo_iterator.wait, hfin]
      · rfl
    | false =>
      right
      have hflag : (waitSteps
          ((GFrame.resume { f with yield_flag := false }).body.length + 1)
          (GFrame.resume { f with yield_flag := false })).yield_flag = true := by
        simpa [pseudoDone, hfin] using hdone
      obtain ⟨v, hv⟩ := hinv hflag
      refine ⟨_, v, ?_, hfin, hflag, hv⟩
      simp [pseudo_iterator.wait, hfin]

theorem C9_witness :
    ∃ p, (⟨some ⟨[GStep.yield (5 : Int)], none, false, false⟩⟩ :
        gen_iterator Int).inc = .ok p ∧
      ((p.wait.co = none ∧
          (waitSteps (p.frame.body.length + 1) p.frame).finished = true) ∨
       (∃ f1 v, p.wait.co = some f1 ∧ f1.finished = false ∧
          f1.yield_flag = true ∧ f1.stat = some (.ok v))) :=
  (C9_increment ⟨some ⟨[GStep.yield (5 : Int)], none, false, false⟩⟩
    ⟨[GStep.yield (5 : Int)], none, false, false⟩).2.2 rfl

/-- Claim C10: move-assignment on a task, generator, or iterator handle
sets the target to own the frame of the source and leaves the source
empty, while destroying nothing — in particular the frame the target
previously owned is silently abandoned rather than cleaned up; and move
self-assignment leaves the handle owning its original frame. -/
theorem C10_move_assignment {S T : Type} (ttgt tsrc : basic_task S T)
    (gtgt gsrc : basic_generator T) (itgt isrc : gen_iterator T) :
    (ttgt.moveAssign tsrc = (⟨tsrc.co⟩, ⟨none⟩, []) ∧
     ttgt.selfMoveAssign = (ttgt, [])) ∧
    (gtgt.moveAssign gsrc = (⟨gsrc.co⟩, ⟨none⟩, []) ∧
     gtgt.selfMoveAssign = (gtgt, [])) ∧
    (itgt.moveAssign isrc = (⟨isrc.co⟩, ⟨none⟩, []) ∧
     itgt.selfMoveAssign = (itgt, [])) :=
  ⟨⟨rfl, rfl⟩, ⟨rfl, rfl⟩, ⟨rfl, rfl⟩⟩

end coutil
